import Mathlib

/-!
Verification of the coinbot replica pipeline against its specification.

The Python sources are shallowly embedded. Timestamps (`datetime` values)
become integer epoch milliseconds. `decimal.Decimal` values become either
the scaled-decimal representation `Dec` (mantissa and number of decimal
places, used wherever the printed representation of a value matters) or
exact rationals (in the PnL tracker, whose claim-relevant code paths use
only operations that Decimal performs exactly). Stateful classes become
explicit state-passing functions, and each `datetime.now()` call site takes
the current time as an explicit argument.
-/

namespace Coinbot

/-- Scaled-decimal model of `decimal.Decimal`: the value is `m / 10 ^ e`.
Every Decimal arising in this pipeline has a non-positive exponent, so `e`
records the number of decimal places (the negated exponent). The addition,
multiplication and absolute value below reproduce Decimal results exactly,
including the exponent of the result, because the operands stay far below
the 28 significant digits of the default context. -/
structure Dec where
  m : Int
  e : Nat
deriving DecidableEq

/-- Rational value of a scaled decimal. -/
def Dec.val (d : Dec) : ℚ := (d.m : ℚ) / (10 : ℚ) ^ d.e

/-- Decimal addition: align mantissas to the larger number of decimal
places, which is the exponent Decimal gives an exact sum. -/
def Dec.add (a b : Dec) : Dec :=
  ⟨a.m * 10 ^ (max a.e b.e - a.e) + b.m * 10 ^ (max a.e b.e - b.e), max a.e b.e⟩

/-- Decimal multiplication: mantissas multiply, exponents add. -/
def Dec.mul (a b : Dec) : Dec := ⟨a.m * b.m, a.e + b.e⟩

/-- Decimal `abs` keeps the exponent. -/
def Dec.abs (a : Dec) : Dec := ⟨|a.m|, a.e⟩

/-- Decimal comparison is by value; with the positive denominators
`10 ^ e` this is the integer cross-multiplied comparison (the lemma
`Dec.lt_iff_val` below equates the two). -/
def Dec.lt (a b : Dec) : Prop := a.m * 10 ^ b.e < b.m * 10 ^ a.e

instance (a b : Dec) : Decidable (Dec.lt a b) := by
  unfold Dec.lt
  infer_instance

/-- Python `min(a, b)`: the first argument unless the second is strictly
smaller. -/
def Dec.min2 (a b : Dec) : Dec := if Dec.lt b a then b else a

/- ### Schemas (src/coinbot/schemas.py) -/

/-- `Side` enumeration from schemas.py. -/
inductive Side where
  | BUY
  | SELL
deriving DecidableEq

/-- `Side.value`: the wire string of a side. -/
def Side.value : Side → String
  | .BUY => "BUY"
  | .SELL => "SELL"

/-- `MarketWindow` from schemas.py; timestamps are epoch milliseconds. -/
structure MarketWindow where
  asset : String
  start_ts : Int
  end_ts : Int
  duration_seconds : Int
  window_id : String
deriving DecidableEq

/-- `TradeEvent` from schemas.py; timestamps are epoch milliseconds. -/
structure TradeEvent where
  event_id : String
  source_wallet : String
  market_id : String
  market_slug : String
  outcome : String
  side : Side
  price : Dec
  shares : Dec
  notional_usd : Dec
  executed_ts : Int
  received_ts : Int := 0
  window : Option MarketWindow := none
deriving DecidableEq

/-- `ExecutionIntent` from schemas.py. The `created_ts` field (a wall-clock
default that no claim mentions) is omitted. -/
structure ExecutionIntent where
  intent_id : String
  market_id : String
  outcome : String
  side : Side
  target_notional_usd : Dec
  max_slippage_bps : Int
  coalesced_event_ids : List String
  window_id : Option String := none
deriving DecidableEq

/- ### Coalescer (src/coinbot/decision_engine/coalescer.py) -/

/-- `CoalescerConfig` from coalescer.py. -/
structure CoalescerConfig where
  coalesce_ms : Int := 300
  max_slippage_bps : Int := 120
  net_opposite_trades : Bool := true

/-- `IntentNetCoalescer._coalesce_key`: in netting mode the key is
`market:window` with no outcome; otherwise `market:outcome:side:window`. -/
def coalesceKey (cfg : CoalescerConfig) (event : TradeEvent) : String :=
  let window_id := match event.window with
    | some w => w.window_id
    | none => "na"
  if cfg.net_opposite_trades then
    event.market_id ++ ":" ++ window_id
  else
    event.market_id ++ ":" ++ event.outcome ++ ":" ++ event.side.value ++ ":" ++ window_id

/-- Python `sorted(events, key=lambda e: e.executed_ts)`: a stable sort by
`executed_ts`. Insertion sort with `≤` on the key is stable and sorted, so
it computes the same list as Python's stable mergesort. -/
def sortByExecutedTs (events : List TradeEvent) : List TradeEvent :=
  List.insertionSort (fun a b => a.executed_ts ≤ b.executed_ts) events

/-- One signed summand of the net: `Decimal("1")` or `Decimal("-1")` times
the notional. -/
def signedNotional (event : TradeEvent) : Dec :=
  Dec.mul (if event.side = Side.BUY then ⟨1, 0⟩ else ⟨-1, 0⟩) event.notional_usd

/-- The accumulation loop computing the signed net notional, starting from
`Decimal("0")`. -/
def netNotional (events : List TradeEvent) : Dec :=
  events.foldl (fun acc event => Dec.add acc (signedNotional event)) ⟨0, 0⟩

/-- Signed notional of one event as a rational: `+notional` for BUY,
`-notional` for SELL. -/
def signedNotionalVal (event : TradeEvent) : ℚ :=
  (if event.side = Side.BUY then 1 else -1) * event.notional_usd.val

/-- `IntentNetCoalescer._to_intent`. `nowMs` is the value of
`datetime.now(timezone.utc).timestamp() * 1000` at the call, which the
source interpolates into `intent_id`. The empty-list case mirrors the
`if not events: return` guard of `_flush_after`, the only caller. The
Decimal comparisons `net_usd == 0` and `net_usd > 0` compare values, which
for `net = m / 10 ^ e` is `m = 0` and `0 < m` (`Dec.val_eq_zero_iff`,
`Dec.val_pos_iff` below). -/
def toIntent (cfg : CoalescerConfig) (nowMs : Int) (events : List TradeEvent) :
    Option ExecutionIntent :=
  match sortByExecutedTs events with
  | [] => none
  | e0 :: rest =>
    let ordered := e0 :: rest
    let event_ids := ordered.map (fun e => e.event_id)
    let window_id := e0.window.map (fun w => w.window_id)
    if cfg.net_opposite_trades then
      let net := netNotional ordered
      if net.m = 0 then none
      else
        some
          { intent_id := e0.market_id ++ ":" ++ e0.outcome ++ ":" ++ toString nowMs
            market_id := e0.market_id
            outcome := e0.outcome
            side := if 0 < net.m then Side.BUY else Side.SELL
            target_notional_usd := Dec.abs net
            max_slippage_bps := cfg.max_slippage_bps
            coalesced_event_ids := event_ids
            window_id := window_id }
    else
      some
        { intent_id := e0.market_id ++ ":" ++ e0.outcome ++ ":" ++ toString nowMs
          market_id := e0.market_id
          outcome := e0.outcome
          side := e0.side
          target_notional_usd :=
            ordered.foldl (fun acc e => Dec.add acc e.notional_usd) ⟨0, 0⟩
          max_slippage_bps := cfg.max_slippage_bps
          coalesced_event_ids := event_ids
          window_id := window_id }

/- ### Orchestrator coalescing (src/coinbot/main.py) -/

/-- `main._coalesce_key`: `market:window:outcome`, plus `:side` when
opposite trades are not netted. -/
def mainCoalesceKey (net_opposite : Bool) (event : TradeEvent) : String :=
  let window_id := match event.window with
    | some w => w.window_id
    | none => "na"
  if net_opposite then
    event.market_id ++ ":" ++ window_id ++ ":" ++ event.outcome
  else
    event.market_id ++ ":" ++ window_id ++ ":" ++ event.outcome ++ ":" ++ event.side.value

/-- `main._coalesced_intent`: sort, net with BUY = +1 and SELL = -1, emit
nothing on a zero net, otherwise build the intent; `intent_id` is derived
from the first sorted event. Returns the intent together with the sorted
event list, as the source does. -/
def coalescedIntent (events : List TradeEvent) (max_slippage_bps : Int) :
    Option (ExecutionIntent × List TradeEvent) :=
  match sortByExecutedTs events with
  | [] => none
  | e0 :: rest =>
    let ordered := e0 :: rest
    let net := netNotional ordered
    if net.m = 0 then none
    else
      some
        ({ intent_id := e0.market_id ++ ":" ++ e0.outcome ++ ":" ++ e0.event_id
           market_id := e0.market_id
           outcome := e0.outcome
           side := if 0 < net.m then Side.BUY else Side.SELL
           target_notional_usd := Dec.abs net
           max_slippage_bps := max_slippage_bps
           coalesced_event_ids := ordered.map (fun e => e.event_id)
           window_id := e0.window.map (fun w => w.window_id) },
         ordered)

/- ### Policy (src/coinbot/decision_engine/policy.py) -/

/-- `SizingConfig` defaults from config.py, each taken through
`Decimal(str(float))` as policy.py does. -/
structure SizingConfig where
  mode : String := "capped_proportional"
  fixed_order_notional_usd : Dec := ⟨100, 1⟩
  size_multiplier : Dec := ⟨10, 1⟩
  min_order_notional_usd : Dec := ⟨10, 1⟩
  max_notional_per_order_usd : Dec := ⟨250, 1⟩
  max_notional_per_market_usd : Dec := ⟨1500, 1⟩
  max_daily_traded_volume_usd : Dec := ⟨15000, 1⟩
  max_total_notional_per_15m_window_usd : Dec := ⟨4000, 1⟩

/-- `ExecutionConfig` defaults from config.py. -/
structure ExecutionConfig where
  order_type : String := "marketable_limit"
  max_slippage_bps : Int := 120
  near_expiry_cutoff_seconds : Int := 25
  fee_bps : Dec := ⟨0, 1⟩
  dry_run : Bool := true

/-- `DecisionResult` from policy.py. -/
structure DecisionResult where
  intent : Option ExecutionIntent
  blocked_reason : String := ""
deriving DecidableEq

/-- `IntentPolicy._size_notional`: fixed, proportional or (default) capped
proportional sizing, with the per-order cap applied again after scaling. -/
def sizeNotional (sizing : SizingConfig) (source_notional : Dec) : Dec :=
  let sized :=
    if sizing.mode = "fixed" then sizing.fixed_order_notional_usd
    else if sizing.mode = "proportional" then
      Dec.mul source_notional sizing.size_multiplier
    else
      Dec.min2 (Dec.mul source_notional sizing.size_multiplier)
        sizing.max_notional_per_order_usd
  Dec.min2 sized sizing.max_notional_per_order_usd

/-- `IntentPolicy._near_expiry`: the last source event's window has at most
`near_expiry_cutoff_seconds` remaining. `nowMs` is `datetime.now` at the
call, in epoch milliseconds. -/
def nearExpiry (execCfg : ExecutionConfig) (nowMs : Int) (source_events : List TradeEvent) :
    Bool :=
  match source_events.getLast? with
  | none => false
  | some event =>
    match event.window with
    | none => false
    | some w =>
      decide ((((w.end_ts - nowMs : Int)) : ℚ) / 1000 ≤ (execCfg.near_expiry_cutoff_seconds : ℚ))

/-- `IntentPolicy.apply`: the near-expiry guard, then sizing, then the
minimum-notional guard. This is the complete guard list of the source;
in particular there is no source-staleness guard and the class accepts no
staleness threshold. -/
def applyPolicy (sizing : SizingConfig) (execCfg : ExecutionConfig) (nowMs : Int)
    (intent : ExecutionIntent) (source_events : List TradeEvent) : DecisionResult :=
  if nearExpiry execCfg nowMs source_events then ⟨none, "near_expiry_cutoff"⟩
  else
    let sized := sizeNotional sizing intent.target_notional_usd
    if Dec.lt sized sizing.min_order_notional_usd then ⟨none, "below_min_order_notional"⟩
    else
      ⟨some { intent with
          target_notional_usd := sized
          max_slippage_bps := execCfg.max_slippage_bps }, ""⟩

/- ### PnL tracker (src/coinbot/telemetry/pnl.py) -/

/-- `Position` from pnl.py. Quantities and prices are modelled as exact
rationals: every Decimal operation `apply_fill` performs on the code paths
proved below (addition, subtraction, multiplication, `min`, comparison) is
exact; the one rounding operation of the class, the weighted-average
division in the long-BUY branch, is embedded as exact rational division and
is not on any proved path. -/
structure Position where
  qty : ℚ := 0
  avg_price : ℚ := 0
deriving DecidableEq

/-- The mutable state of a `PnLTracker`. The position dictionary with
`setdefault(key, Position())` becomes a total function defaulting to the
zero position. -/
structure PnLState where
  positions : String → Position
  marks : String → Option ℚ
  realized_trading : ℚ
  realized_settled : ℚ
  fees : ℚ
  fee_bps : ℚ

/-- A freshly constructed `PnLTracker(fee_bps=...)`. -/
def pnlInit (fee_bps : ℚ) : PnLState :=
  ⟨fun _ => {}, fun _ => none, 0, 0, 0, fee_bps⟩

/-- `pnl._key`. -/
def pnlKey (market_id outcome : String) : String := market_id ++ ":" ++ outcome

/-- `PnLTracker.set_mark`. -/
def setMark (st : PnLState) (market_id outcome : String) (price : ℚ) : PnLState :=
  { st with marks := fun k => if k = pnlKey market_id outcome then some price else st.marks k }

/-- `PnLTracker.apply_fill`: fee accrual, then the four position-update
branches (BUY onto a non-positive position overwrites it; BUY onto a long
averages in; SELL while long realizes against `min(qty, pos.qty)` and zeros
the average price when the position closes; SELL otherwise extends a short
repriced at the fill). -/
def applyFill (st : PnLState) (market_id outcome side : String) (qty price : ℚ) : PnLState :=
  let key := pnlKey market_id outcome
  let pos := st.positions key
  let fees := st.fees + |qty * price| * st.fee_bps / 10000
  if side = "BUY" then
    if pos.qty ≤ 0 then
      { st with fees := fees
                positions := fun k => if k = key then ⟨qty, price⟩ else st.positions k }
    else
      let new_qty := pos.qty + qty
      let new_avg := ((pos.qty * pos.avg_price) + (qty * price)) / new_qty
      { st with fees := fees
                positions := fun k => if k = key then ⟨new_qty, new_avg⟩ else st.positions k }
  else
    if 0 < pos.qty then
      let close_qty := min qty pos.qty
      let new_qty := pos.qty - close_qty
      { st with fees := fees
                realized_trading := st.realized_trading + (price - pos.avg_price) * close_qty
                positions := fun k =>
                  if k = key then ⟨new_qty, if new_qty = 0 then 0 else pos.avg_price⟩
                  else st.positions k }
    else
      { st with fees := fees
                positions := fun k => if k = key then ⟨pos.qty - qty, price⟩ else st.positions k }

/- ### Metrics collector (src/coinbot/telemetry/metrics.py) -/

/-- `StageTimes` from metrics.py. -/
structure StageTimes where
  event_receive_ts_ms : Option Int := none
  decision_ts_ms : Option Int := none
  order_submit_ts_ms : Option Int := none
  ack_ts_ms : Option Int := none
deriving DecidableEq

/-- The mutable state of a `MetricsCollector`. The per-correlation
dictionary (whose `_stage` lookup inserts a fresh `StageTimes` on a miss)
becomes a total function defaulting to the fresh record. -/
structure MetricsState where
  byCorrelation : String → StageTimes
  copyDelays : List ℚ
  decisionDelays : List ℚ
  submitToAckDelays : List ℚ
  sourceFills : Nat
  destinationOrders : Nat
  submissions : Nat
  rejections : Nat

/-- A freshly constructed `MetricsCollector()`. -/
def metricsInit : MetricsState := ⟨fun _ => {}, [], [], [], 0, 0, 0, 0⟩

/-- Point update of the per-correlation stage record. -/
def setStage (st : MetricsState) (cid : String) (f : StageTimes → StageTimes) : MetricsState :=
  { st with byCorrelation := fun k => if k = cid then f (st.byCorrelation cid) else st.byCorrelation k }

/-- `MetricsCollector.record_event_receive`. -/
def recordEventReceive (st : MetricsState) (cid : String) (ts : Int) : MetricsState :=
  let st1 := setStage st cid (fun s => { s with event_receive_ts_ms := some ts })
  { st1 with sourceFills := st1.sourceFills + 1 }

/-- `MetricsCollector.record_decision`. -/
def recordDecision (st : MetricsState) (cid : String) (ts : Int) : MetricsState :=
  let stage := st.byCorrelation cid
  let st1 := setStage st cid (fun s => { s with decision_ts_ms := some ts })
  match stage.event_receive_ts_ms with
  | some t0 => { st1 with decisionDelays := st1.decisionDelays ++ [((ts - t0 : Int) : ℚ)] }
  | none => st1

/-- `MetricsCollector.record_order_submit`. -/
def recordOrderSubmit (st : MetricsState) (cid : String) (ts : Int) : MetricsState :=
  let stage := st.byCorrelation cid
  let st1 := setStage st cid (fun s => { s with order_submit_ts_ms := some ts })
  let st2 := { st1 with destinationOrders := st1.destinationOrders + 1
                        submissions := st1.submissions + 1 }
  match stage.event_receive_ts_ms with
  | some t0 => { st2 with copyDelays := st2.copyDelays ++ [((ts - t0 : Int) : ℚ)] }
  | none => st2

/-- `MetricsCollector.record_ack`. This is the whole signature of the
source method: one keyword argument `accepted`, and every not-accepted ack
increments the rejection counter, whatever the submission's error code. -/
def recordAck (st : MetricsState) (cid : String) (ts : Int) (accepted : Bool) : MetricsState :=
  let stage := st.byCorrelation cid
  let st1 := setStage st cid (fun s => { s with ack_ts_ms := some ts })
  let st2 := match stage.order_submit_ts_ms with
    | some t0 => { st1 with submitToAckDelays := st1.submitToAckDelays ++ [((ts - t0 : Int) : ℚ)] }
    | none => st1
  if accepted then st2 else { st2 with rejections := st2.rejections + 1 }

/-- Ascending sort of the recorded delays, as `sorted(values)`. -/
def sortRat (l : List ℚ) : List ℚ := List.insertionSort (fun a b => a ≤ b) l

/-- `statistics.median` on an already-sorted list. -/
def medianSorted (l : List ℚ) : ℚ :=
  let n := l.length
  if n % 2 = 1 then l.getD (n / 2) 0
  else (l.getD (n / 2 - 1) 0 + l.getD (n / 2) 0) / 2

/-- Python `round` to an integer: half-to-even. -/
def roundHalfEven (q : ℚ) : Int :=
  let f := ⌊q⌋
  let r := q - f
  if r < 1 / 2 then f
  else if 1 / 2 < r then f + 1
  else if f % 2 = 0 then f else f + 1

/-- `metrics._percentile` on a sorted list. The source computes the index
in binary floating point; it is embedded over exact rationals, which agrees
on every list this file evaluates (their lengths are at most one, which the
first two branches answer before any index arithmetic). -/
def percentileSorted (l : List ℚ) (p : ℚ) : ℚ :=
  match l with
  | [] => 0
  | [x] => x
  | _ =>
    let idx := roundHalfEven ((p / 100) * ((l.length : ℚ) - 1))
    l.getD (max 0 (min idx ((l.length : Int) - 1))).toNat 0

/-- `PercentileSummary` from metrics.py. -/
structure PercentileSummary where
  p50 : ℚ
  p95 : ℚ
  p99 : ℚ
deriving DecidableEq

/-- `metrics._summary`. -/
def summary (values : List ℚ) : Option PercentileSummary :=
  if values = [] then none
  else
    let ordered := sortRat values
    some ⟨medianSorted ordered, percentileSorted ordered 95, percentileSorted ordered 99⟩

/-- `DashboardSnapshot` from metrics.py. -/
structure DashboardSnapshot where
  copy_delay_ms : Option PercentileSummary
  decision_delay_ms : Option PercentileSummary
  submit_to_ack_ms : Option PercentileSummary
  source_fills : Nat
  destination_orders : Nat
  coalescing_efficiency : Option ℚ
  reject_rate : ℚ
deriving DecidableEq

/-- `MetricsCollector._coalescing_efficiency`. -/
def coalescingEfficiency (st : MetricsState) : Option ℚ :=
  if st.destinationOrders = 0 then none
  else some ((st.sourceFills : ℚ) / (st.destinationOrders : ℚ))

/-- `MetricsCollector.snapshot`: the cumulative snapshot, and the only
snapshot operation the class defines. -/
def snapshot (st : MetricsState) : DashboardSnapshot :=
  { copy_delay_ms := summary st.copyDelays
    decision_delay_ms := summary st.decisionDelays
    submit_to_ack_ms := summary st.submitToAckDelays
    source_fills := st.sourceFills
    destination_orders := st.destinationOrders
    coalescing_efficiency := coalescingEfficiency st
    reject_rate := if st.submissions = 0 then 0 else (st.rejections : ℚ) / (st.submissions : ℚ) }

/- ### Kill switch (src/coinbot/decision_engine/kill_switch.py) -/

/-- `AutoKillThresholds` from kill_switch.py; the error rates are floats in
the source and exact rationals here. -/
structure AutoKillThresholds where
  max_error_rate : ℚ := 1 / 5
  max_p95_latency_ms : Int := 1200
  recover_max_error_rate : ℚ := 1 / 10
  recover_max_p95_latency_ms : Int := 800
  recovery_consecutive_snapshots : Nat := 2

/-- The combined state of a `KillSwitch` and the `AutoKillGuard` streak
counter that drives it. -/
structure GuardState where
  active : Bool
  reason : String
  streak : Nat
deriving DecidableEq

/-- `AutoKillGuard.evaluate`: activate on a breached threshold, otherwise
count consecutive recovery-healthy snapshots while active and deactivate
when the streak reaches the configured length; an in-band but
not-recovery-healthy reading resets the streak. -/
def evaluate (t : AutoKillThresholds) (s : GuardState) (error_rate : ℚ)
    (p95_latency_ms : Int) : GuardState :=
  if t.max_error_rate < error_rate then ⟨true, "auto_error_rate_threshold", 0⟩
  else if t.max_p95_latency_ms < p95_latency_ms then ⟨true, "auto_latency_threshold", 0⟩
  else if s.active then
    if error_rate ≤ t.recover_max_error_rate ∧ p95_latency_ms ≤ t.recover_max_p95_latency_ms then
      if t.recovery_consecutive_snapshots ≤ s.streak + 1 then ⟨false, "", 0⟩
      else ⟨s.active, s.reason, s.streak + 1⟩
    else ⟨s.active, s.reason, 0⟩
  else s

/-- A sequence of `evaluate` calls, one per telemetry snapshot. -/
def evaluateSeq (t : AutoKillThresholds) (s : GuardState) (readings : List (ℚ × Int)) :
    GuardState :=
  readings.foldl (fun st r => evaluate t st r.1 r.2) s

/-- A reading that breaches an activation threshold. -/
def unhealthyReading (t : AutoKillThresholds) (error_rate : ℚ) (p95_latency_ms : Int) : Prop :=
  t.max_error_rate < error_rate ∨ t.max_p95_latency_ms < p95_latency_ms

/-- A reading within both recovery bounds. -/
def recoveryHealthy (t : AutoKillThresholds) (error_rate : ℚ) (p95_latency_ms : Int) : Prop :=
  error_rate ≤ t.recover_max_error_rate ∧ p95_latency_ms ≤ t.recover_max_p95_latency_ms

/- ### Order client (src/coinbot/executor/order_client.py) -/

/-- Whether the first list is a prefix of the second, by character. -/
def listPrefixEq : List Char → List Char → Bool
  | [], _ => true
  | _ :: _, [] => false
  | a :: as, b :: bs => a == b && listPrefixEq as bs

/-- Whether the pattern occurs contiguously in the list. -/
def listContainsSeq (pat : List Char) : List Char → Bool
  | [] => pat.isEmpty
  | b :: bs => listPrefixEq pat (b :: bs) || listContainsSeq pat bs

/-- Python `pat in hay` on strings: contiguous-substring containment. -/
def strContains (hay pat : String) : Bool := listContainsSeq pat.data hay.data

/-- ASCII lowercasing of one character, as Python `str.lower` acts on the
ASCII provider error strings. -/
def lowerChar (c : Char) : Char :=
  if 65 ≤ c.toNat ∧ c.toNat ≤ 90 then Char.ofNat (c.toNat + 32) else c

/-- Python `error.lower()` on the ASCII error strings. -/
def strToLower (s : String) : String := ⟨s.data.map lowerChar⟩

/-- `order_client._classify_error_code`: lowercase the error, report
`min_size` when it mentions both "size" and "lower than the minimum". -/
def classifyErrorCode (error : String) : String :=
  let normalized := strToLower error
  if strContains normalized "size" && strContains normalized "lower than the minimum" then
    "min_size"
  else ""

/-- `str` of a Python Decimal with a non-positive exponent: the mantissa
digits with a decimal point inserted `e` places from the right, zero-padded
on the left as needed — CPython's positional rendering for such values. -/
def decStr (d : Dec) : String :=
  let sign := if d.m < 0 then "-" else ""
  let digits : List Char := Nat.toDigits 10 d.m.natAbs
  if d.e = 0 then sign ++ ⟨digits⟩
  else
    let padded := List.replicate (d.e + 1 - digits.length) '0' ++ digits
    let k := padded.length - d.e
    sign ++ ⟨padded.take k⟩ ++ "." ++ ⟨padded.drop k⟩

/-- UTF-8 encoding of one character's code point. -/
def utf8Char (c : Char) : List Nat :=
  let n := c.toNat
  if n < 128 then [n]
  else if n < 2048 then [192 + n / 64, 128 + n % 64]
  else if n < 65536 then [224 + n / 4096, 128 + n / 64 % 64, 128 + n % 64]
  else [240 + n / 262144, 128 + n / 4096 % 64, 128 + n / 64 % 64, 128 + n % 64]

/-- `encode("utf-8")` of a string, as a byte list. -/
def utf8Bytes (s : String) : List Nat := (s.data.map utf8Char).flatten

/-- Truncation to a 32-bit word. -/
def w32 (n : Nat) : Nat := n % 4294967296

/-- Right rotation of a 32-bit word. -/
def rotr (r n : Nat) : Nat := w32 ((n >>> r) ||| (n <<< (32 - r)))

/-- The SHA-256 round constants. -/
def shaK : List Nat := [
  1116352408, 1899447441, 3049323471, 3921009573, 961987163, 1508970993, 2453635748, 2870763221,
  3624381080, 310598401, 607225278, 1426881987, 1925078388, 2162078206, 2614888103, 3248222580,
  3835390401, 4022224774, 264347078, 604807628, 770255983, 1249150122, 1555081692, 1996064986,
  2554220882, 2821834349, 2952996808, 3210313671, 3336571891, 3584528711, 113926993, 338241895,
  666307205, 773529912, 1294757372, 1396182291, 1695183700, 1986661051, 2177026350, 2456956037,
  2730485921, 2820302411, 3259730800, 3345764771, 3516065817, 3600352804, 4094571909, 275423344,
  430227734, 506948616, 659060556, 883997877, 958139571, 1322822218, 1537002063, 1747873779,
  1955562222, 2024104815, 2227730452, 2361852424, 2428436474, 2756734187, 3204031479, 3329325298]

/-- The SHA-256 initial hash state. -/
def shaH0 : List Nat :=
  [1779033703, 3144134277, 1013904242, 2773480762, 1359893119, 2600822924, 528734635, 1541459225]

/-- Big-endian bytes of a number, fixed width. -/
def beBytes : Nat → Nat → List Nat
  | 0, _ => []
  | k + 1, n => beBytes k (n / 256) ++ [n % 256]

/-- SHA-256 message padding: a 0x80 byte, zeros to 56 mod 64, then the bit
length as eight big-endian bytes. -/
def shaPad (msg : List Nat) : List Nat :=
  let l := msg.length
  let zeros := (119 - l % 64) % 64
  msg ++ [128] ++ List.replicate zeros 0 ++ beBytes 8 (8 * l)

/-- Big-endian 32-bit words from a byte list. -/
def toWords : List Nat → List Nat
  | a :: b :: c :: d :: rest => (a * 16777216 + b * 65536 + c * 256 + d) :: toWords rest
  | _ => []

/-- 64-byte chunks; the first argument is fuel (the total byte count). -/
def chunksAux : Nat → List Nat → List (List Nat)
  | 0, _ => []
  | _, [] => []
  | fuel + 1, l => l.take 64 :: chunksAux fuel (l.drop 64)

/-- The 64-byte chunks of a padded message. -/
def chunks (l : List Nat) : List (List Nat) := chunksAux l.length l

/-- The two small sigma functions of the message schedule. -/
def smallSigma0 (x : Nat) : Nat := (rotr 7 x) ^^^ (rotr 18 x) ^^^ (x >>> 3)

/-- See `smallSigma0`. -/
def smallSigma1 (x : Nat) : Nat := (rotr 17 x) ^^^ (rotr 19 x) ^^^ (x >>> 10)

/-- Extend the 16 schedule words by the given count, to 64 in total. -/
def extendWords : Nat → List Nat → List Nat
  | 0, ws => ws
  | k + 1, ws =>
    let i := ws.length
    let next := w32 (ws.getD (i - 16) 0 + smallSigma0 (ws.getD (i - 15) 0)
      + ws.getD (i - 7) 0 + smallSigma1 (ws.getD (i - 2) 0))
    extendWords k (ws ++ [next])

/-- The two big sigma functions of the compression loop. -/
def bigSigma0 (x : Nat) : Nat := (rotr 2 x) ^^^ (rotr 13 x) ^^^ (rotr 22 x)

/-- See `bigSigma0`. -/
def bigSigma1 (x : Nat) : Nat := (rotr 6 x) ^^^ (rotr 11 x) ^^^ (rotr 25 x)

/-- The SHA-256 choice function; complement within 32 bits. -/
def chFn (x y z : Nat) : Nat := (x &&& y) ^^^ ((x ^^^ 4294967295) &&& z)

/-- The SHA-256 majority function. -/
def majFn (x y z : Nat) : Nat := (x &&& y) ^^^ (x &&& z) ^^^ (y &&& z)

/-- One compression round over the eight-word working state. -/
def shaRound (st : List Nat) (kw : Nat × Nat) : List Nat :=
  match st with
  | [a, b, c, d, e, f, g, h] =>
    let t1 := w32 (h + bigSigma1 e + chFn e f g + kw.1 + kw.2)
    let t2 := w32 (bigSigma0 a + majFn a b c)
    [w32 (t1 + t2), a, b, c, w32 (d + t1), e, f, g]
  | other => other

/-- Compress one 64-byte chunk into the hash state. -/
def shaChunk (hs : List Nat) (chunk : List Nat) : List Nat :=
  let ws := extendWords 48 (toWords chunk)
  let st := (shaK.zip ws).foldl shaRound hs
  List.zipWith (fun x y => w32 (x + y)) hs st

/-- The SHA-256 digest of a byte list, as eight 32-bit words. -/
def sha256Words (msg : List Nat) : List Nat := (chunks (shaPad msg)).foldl shaChunk shaH0

/-- A lowercase hex digit. -/
def hexDigit (n : Nat) : Char := if n < 10 then Char.ofNat (48 + n) else Char.ofNat (87 + n)

/-- The eight hex digits of a 32-bit word. -/
def wordHex (n : Nat) : List Char :=
  [hexDigit (n / 268435456 % 16), hexDigit (n / 16777216 % 16), hexDigit (n / 1048576 % 16),
   hexDigit (n / 65536 % 16), hexDigit (n / 4096 % 16), hexDigit (n / 256 % 16),
   hexDigit (n / 16 % 16), hexDigit (n % 16)]

/-- `hashlib.sha256(...).hexdigest()`. -/
def sha256Hex (msg : List Nat) : String := ⟨((sha256Words msg).map wordHex).flatten⟩

/-- The string `deterministic_client_order_id` hashes: the six identity
fields joined with `|`, the event ids joined with commas, the absent window
id rendered `na`, and the notional through Decimal `str`. -/
def digestInput (intent : ExecutionIntent) : String :=
  String.intercalate "|"
    [intent.market_id, intent.outcome, intent.side.value, intent.window_id.getD "na",
     String.intercalate "," intent.coalesced_event_ids, decStr intent.target_notional_usd]

/-- `order_client.deterministic_client_order_id`: `cb-` followed by the
first 24 hex characters of the SHA-256 of the digest input. -/
def deterministicClientOrderId (intent : ExecutionIntent) : String :=
  "cb-" ++ (sha256Hex (utf8Bytes (digestInput intent))).take 24

/- ### Concrete fixtures used by the theorems below -/

/-- A BUY fill on market `m1`, outcome `Up` (fields as in the repository's
integration test). -/
def upEvent : TradeEvent :=
  { event_id := "evt-up", source_wallet := "0xabc", market_id := "m1"
    market_slug := "btc-up-down", outcome := "Up", side := .BUY
    price := ⟨55, 2⟩, shares := ⟨10, 0⟩, notional_usd := ⟨55, 1⟩, executed_ts := 0 }

/-- The same fill on the opposite outcome of the same market and window. -/
def downEvent : TradeEvent := { upEvent with event_id := "evt-down", outcome := "Down" }

/-- The stale source event of the policy test: executed ten seconds before
the policy runs. -/
def staleEvent : TradeEvent :=
  { event_id := "e1", source_wallet := "0x1d0034134e339a309700ff2d34e99fa2d48b0313"
    market_id := "m1", market_slug := "m1", outcome := "YES", side := .BUY
    price := ⟨55, 2⟩, shares := ⟨10, 0⟩, notional_usd := ⟨55, 1⟩, executed_ts := 0 }

/-- The ten-dollar intent of the policy test. -/
def policyIntent : ExecutionIntent :=
  { intent_id := "intent-1", market_id := "m1", outcome := "YES", side := .BUY
    target_notional_usd := ⟨10, 0⟩, max_slippage_bps := 60, coalesced_event_ids := ["e1"] }

/-- The metrics test sequence: one event received at 1000 ms, submitted at
2500 ms, acked not-accepted at 2600 ms. -/
def metricsScenario : MetricsState :=
  recordAck (recordOrderSubmit (recordEventReceive metricsInit "cid-1" 1000) "cid-1" 2500)
    "cid-1" 2600 false

/-- The provider reject message of spec scenario 5. -/
def minSizeError : String := "order X is invalid. Size (3.98) lower than the minimum: 5"

/-- Long two shares of `m2:Up` at 0.40, then sell five at 0.60 — a SELL
overshooting the long position by three shares. -/
def pnlScenario : PnLState :=
  applyFill (applyFill (pnlInit 0) "m2" "Up" "BUY" 2 (2 / 5)) "m2" "Up" "SELL" 5 (3 / 5)

/-- A five-dollar BUY, exactly opposed by `sellFive` in the same bucket. -/
def buyFive : TradeEvent :=
  { event_id := "b1", source_wallet := "0xabc", market_id := "m1"
    market_slug := "btc-up-down", outcome := "Up", side := .BUY
    price := ⟨5, 1⟩, shares := ⟨10, 0⟩, notional_usd := ⟨5, 0⟩, executed_ts := 0 }

/-- The exact opposite of `buyFive`, ten milliseconds later. -/
def sellFive : TradeEvent := { buyFive with event_id := "s1", side := .SELL, executed_ts := 10 }

/-- A three-share short of `m3:Down` opened at 0.50 from flat. -/
def shortState : PnLState := applyFill (pnlInit 0) "m3" "Down" "SELL" 3 (1 / 2)

/-- The sample intent of the repository's order-client tests. -/
def sampleIntent : ExecutionIntent :=
  { intent_id := "i1", market_id := "m1", outcome := "Up", side := .BUY
    target_notional_usd := ⟨5, 0⟩, max_slippage_bps := 120
    coalesced_event_ids := ["e1"], window_id := some "w1" }

/- ### Helper lemmas -/

/-- A scaled decimal has value zero exactly when its mantissa is zero. -/
theorem Dec.val_eq_zero_iff (d : Dec) : d.val = 0 ↔ d.m = 0 := by
  unfold Dec.val
  rw [div_eq_zero_iff]
  simp [pow_eq_zero_iff]

/-- A scaled decimal has positive value exactly when its mantissa is
positive. -/
theorem Dec.val_pos_iff (d : Dec) : 0 < d.val ↔ 0 < d.m := by
  unfold Dec.val
  rw [div_pos_iff_of_pos_right (by positivity)]
  exact Int.cast_pos

/-- The cross-multiplied comparison is the value comparison. -/
theorem Dec.lt_iff_val (a b : Dec) : Dec.lt a b ↔ a.val < b.val := by
  unfold Dec.lt Dec.val
  rw [div_lt_div_iff₀ (by positivity) (by positivity)]
  constructor
  · intro h
    exact_mod_cast h
  · intro h
    exact_mod_cast h

/-- Scaling a mantissa to a larger number of decimal places keeps the
value. -/
theorem dec_scale_val (m : Int) (e M : Nat) (he : e ≤ M) :
    (m : ℚ) * 10 ^ (M - e) / 10 ^ M = (m : ℚ) / 10 ^ e := by
  rw [div_eq_div_iff (pow_ne_zero _ (by norm_num)) (pow_ne_zero _ (by norm_num))]
  rw [mul_assoc, ← pow_add]
  congr 2
  omega

/-- `Dec.add` adds values. -/
theorem Dec.val_add (a b : Dec) : (Dec.add a b).val = a.val + b.val := by
  unfold Dec.add Dec.val
  push_cast
  rw [add_div, dec_scale_val _ _ _ (le_max_left a.e b.e),
    dec_scale_val _ _ _ (le_max_right a.e b.e)]

/-- `Dec.mul` multiplies values. -/
theorem Dec.val_mul (a b : Dec) : (Dec.mul a b).val = a.val * b.val := by
  unfold Dec.mul Dec.val
  push_cast
  rw [div_mul_div_comm, ← pow_add]

/-- The signed summand has the signed rational value. -/
theorem val_signedNotional (event : TradeEvent) :
    (signedNotional event).val = signedNotionalVal event := by
  unfold signedNotional signedNotionalVal
  by_cases h : event.side = Side.BUY <;>
    simp only [h, if_true, if_false, ite_true, ite_false] <;>
    rw [Dec.val_mul] <;>
    norm_num [Dec.val]

/-- The net accumulator evaluates to the sum of signed values. -/
theorem netNotional_val (events : List TradeEvent) :
    (netNotional events).val = (events.map signedNotionalVal).sum := by
  suffices h : ∀ b : Dec,
      ((events.foldl (fun acc event => Dec.add acc (signedNotional event)) b).val)
        = b.val + (events.map signedNotionalVal).sum by
    simpa [netNotional, Dec.val] using h ⟨0, 0⟩
  induction events with
  | nil => simp
  | cons e tl ih =>
    intro b
    simp only [List.foldl_cons, List.map_cons, List.sum_cons, ih, Dec.val_add,
      val_signedNotional]
    ring

/-- The stable sort is a permutation of its input. -/
theorem sortByExecutedTs_perm (events : List TradeEvent) :
    List.Perm (sortByExecutedTs events) events :=
  List.perm_insertionSort _ events

/-- The net over the sorted bucket equals the sum of signed values over the
bucket in arrival order. -/
theorem netNotional_sort_val (events : List TradeEvent) :
    (netNotional (sortByExecutedTs events)).val = (events.map signedNotionalVal).sum := by
  rw [netNotional_val]
  exact List.Perm.sum_eq ((sortByExecutedTs_perm events).map signedNotionalVal)

/-- Breaching the error-rate threshold activates the switch and resets the
streak. -/
theorem evaluate_err_breach (t : AutoKillThresholds) (s : GuardState) (er : ℚ) (p95 : Int)
    (h : t.max_error_rate < er) :
    evaluate t s er p95 = ⟨true, "auto_error_rate_threshold", 0⟩ := by
  simp [evaluate, h]

/-- Breaching only the latency threshold activates the switch with the
latency reason and resets the streak. -/
theorem evaluate_lat_breach (t : AutoKillThresholds) (s : GuardState) (er : ℚ) (p95 : Int)
    (h1 : er ≤ t.max_error_rate) (h2 : t.max_p95_latency_ms < p95) :
    evaluate t s er p95 = ⟨true, "auto_latency_threshold", 0⟩ := by
  simp [evaluate, not_lt.2 h1, h2]

/-- An in-band reading leaves an inactive switch untouched. -/
theorem evaluate_inactive (t : AutoKillThresholds) (s : GuardState) (er : ℚ) (p95 : Int)
    (hact : s.active = false) (h1 : er ≤ t.max_error_rate) (h2 : p95 ≤ t.max_p95_latency_ms) :
    evaluate t s er p95 = s := by
  simp [evaluate, not_lt.2 h1, not_lt.2 h2, hact]

/-- In-band readings leave an inactive switch untouched along a whole
sequence. -/
theorem evaluateSeq_inactive (t : AutoKillThresholds) (s : GuardState)
    (readings : List (ℚ × Int)) (hact : s.active = false)
    (hL : ∀ x ∈ readings, x.1 ≤ t.max_error_rate ∧ x.2 ≤ t.max_p95_latency_ms) :
    evaluateSeq t s readings = s := by
  induction readings with
  | nil => rfl
  | cons x xs ih =>
    have hx := hL x (List.mem_cons_self x xs)
    show evaluateSeq t (evaluate t s x.1 x.2) xs = s
    rw [evaluate_inactive t s x.1 x.2 hact hx.1 hx.2]
    exact ih fun y hy => hL y (List.mem_cons_of_mem x hy)

/-- From an active switch with a streak strictly below the recovery length,
a run of recovery-healthy readings keeps the switch active with the streak
counting the readings until the run reaches the recovery length, at which
point the switch deactivates and stays deactivated. Needs the hysteresis
requirement that the recovery bounds sit inside the activation bounds. -/
theorem evaluateSeq_recovery (t : AutoKillThresholds)
    (hyst1 : t.recover_max_error_rate ≤ t.max_error_rate)
    (hyst2 : t.recover_max_p95_latency_ms ≤ t.max_p95_latency_ms)
    (r : String) (j : Nat) (hj : j < t.recovery_consecutive_snapshots)
    (readings : List (ℚ × Int)) (hL : ∀ x ∈ readings, recoveryHealthy t x.1 x.2) :
    evaluateSeq t ⟨true, r, j⟩ readings =
      if j + readings.length < t.recovery_consecutive_snapshots then
        ⟨true, r, j + readings.length⟩
      else ⟨false, "", 0⟩ := by
  induction readings generalizing j with
  | nil => simp [evaluateSeq, hj]
  | cons x xs ih =>
    obtain ⟨hx1, hx2⟩ := hL x (List.mem_cons_self x xs)
    have hxs : ∀ y ∈ xs, recoveryHealthy t y.1 y.2 :=
      fun y hy => hL y (List.mem_cons_of_mem x hy)
    have hne : ¬ t.max_error_rate < x.1 := not_lt.2 (hx1.trans hyst1)
    have hnp : ¬ t.max_p95_latency_ms < x.2 := not_lt.2 (hx2.trans hyst2)
    show evaluateSeq t (evaluate t ⟨true, r, j⟩ x.1 x.2) xs = _
    by_cases hk : t.recovery_consecutive_snapshots ≤ j + 1
    · have hstep : evaluate t ⟨true, r, j⟩ x.1 x.2 = ⟨false, "", 0⟩ := by
        simp [evaluate, hne, hnp, hx1, hx2, hk]
      rw [hstep, evaluateSeq_inactive t ⟨false, "", 0⟩ xs rfl
        (fun y hy => ⟨(hxs y hy).1.trans hyst1, (hxs y hy).2.trans hyst2⟩)]
      have hcond : ¬ j + (xs.length + 1) < t.recovery_consecutive_snapshots := by omega
      simp only [List.length_cons]
      rw [if_neg hcond]
    · have hstep : evaluate t ⟨true, r, j⟩ x.1 x.2 = ⟨true, r, j + 1⟩ := by
        simp [evaluate, hne, hnp, hx1, hx2, hk]
      rw [hstep, ih (j + 1) (by omega) hxs]
      have harith : j + 1 + xs.length = j + (xs.length + 1) := by omega
      simp only [List.length_cons]
      rw [harith]

/-- An in-band reading that misses a recovery bound keeps the switch active
and resets the streak to zero. -/
theorem evaluate_reset (t : AutoKillThresholds) (s : GuardState) (er : ℚ) (p95 : Int)
    (hact : s.active = true) (h1 : er ≤ t.max_error_rate) (h2 : p95 ≤ t.max_p95_latency_ms)
    (hnr : ¬ recoveryHealthy t er p95) :
    evaluate t s er p95 = ⟨true, s.reason, 0⟩ := by
  simp only [recoveryHealthy] at hnr
  simp [evaluate, not_lt.2 h1, not_lt.2 h2, hact, hnr]

/- ### Claim theorems -/

/-- Claim C1, evidence of the divergence: `IntentPolicy.apply` applies no
source-staleness guard — the class accepts no staleness threshold and its
guard list is near-expiry, sizing, minimum. On the staleness scenario (the
last source event executed ten seconds before now, far beyond the 4000 ms
bound the repository's own tests pass to the constructor) the policy
returns a sized intent with an empty blocked reason instead of blocking
with `source_stale`. -/
theorem policy_passes_stale_source_event :
    applyPolicy {} {} 10000 policyIntent [staleEvent] =
      ⟨some { policyIntent with target_notional_usd := ⟨100, 1⟩, max_slippage_bps := 120 }, ""⟩
    ∧ (applyPolicy {} {} 10000 policyIntent [staleEvent]).blocked_reason ≠ "source_stale" := by
  constructor
  · decide
  · decide

/-- Claim C2, evidence of the divergence: the collector's only snapshot
operation is the cumulative `snapshot()`; the `snapshot_window()` that
main.py and the metrics test call does not exist on the class. After the
metrics-test sequence the cumulative snapshot reports the rejected
submission and its 1500 ms copy delay, and further recording accumulates on
top of those values — no operation resets them per call. -/
theorem metrics_snapshot_is_cumulative_only :
    snapshot metricsScenario =
      { copy_delay_ms := some ⟨1500, 1500, 1500⟩
        decision_delay_ms := none
        submit_to_ack_ms := some ⟨100, 100, 100⟩
        source_fills := 1
        destination_orders := 1
        coalescing_efficiency := some 1
        reject_rate := 1 }
    ∧ (snapshot (recordEventReceive metricsScenario "cid-2" 3000)).source_fills = 2 := by
  constructor
  · norm_num [metricsScenario, metricsInit, recordEventReceive, recordOrderSubmit, recordAck,
      setStage, snapshot, summary, sortRat, List.insertionSort, List.orderedInsert,
      medianSorted, percentileSorted, coalescingEfficiency, List.getD]
  · norm_num [metricsScenario, metricsInit, recordEventReceive, recordOrderSubmit, recordAck,
      setStage, snapshot]

/-- Claim C3, evidence of the divergence: `record_ack` takes only
`accepted` (the `counts_toward_reject_rate` keyword main.py passes does not
exist in its signature) and counts every not-accepted ack as a rejection
whatever the error code, so acking the rejected min-size submission moves
`reject_rate` from 0 to 1 even though the error classifies as
`min_size`. -/
theorem min_size_reject_changes_reject_rate :
    classifyErrorCode minSizeError = "min_size"
    ∧ (snapshot (recordOrderSubmit (recordEventReceive metricsInit "cid-1" 1000)
        "cid-1" 2500)).reject_rate = 0
    ∧ (snapshot metricsScenario).reject_rate = 1 := by
  refine ⟨by decide, ?_, ?_⟩
  · norm_num [metricsInit, recordEventReceive, recordOrderSubmit, setStage, snapshot]
  · norm_num [metricsScenario, metricsInit, recordEventReceive, recordOrderSubmit, recordAck,
      setStage, snapshot]

/-- Claim C4, evidence of the divergence: with `net_opposite_trades`
enabled, `IntentNetCoalescer._coalesce_key` keys a bucket by market and
window only, so the two fixture events — which differ exactly in outcome —
receive the same key and share one bucket; the orchestrator's own
`_coalesce_key` (and spec §4.4) key by `market:window:outcome` and separate
them. -/
theorem coalescer_class_key_drops_outcome :
    upEvent.outcome ≠ downEvent.outcome
    ∧ coalesceKey {} upEvent = "m1:na"
    ∧ coalesceKey {} downEvent = "m1:na"
    ∧ mainCoalesceKey true upEvent = "m1:na:Up"
    ∧ mainCoalesceKey true downEvent = "m1:na:Down" := by
  refine ⟨by decide, rfl, rfl, rfl, rfl⟩

/-- Claim C5, evidence of the divergence: `IntentNetCoalescer._to_intent`
interpolates the wall clock into `intent_id`, so two runs of the same
construction over the identical event list at different times emit
different intent ids; the orchestrator's `_coalesced_intent` derives the id
from the first sorted event and is a pure function of the events. -/
theorem to_intent_id_depends_on_wall_clock :
    (toIntent {} 1000 [upEvent]).map (fun i => i.intent_id) = some "m1:Up:1000"
    ∧ (toIntent {} 2000 [upEvent]).map (fun i => i.intent_id) = some "m1:Up:2000"
    ∧ (coalescedIntent [upEvent] 120).map (fun p => p.1.intent_id) = some "m1:Up:evt-up" := by
  refine ⟨by decide, by decide, by decide⟩

/-- Claim C6 counterexample: selling five shares against a long of two
shares held at 0.40 realizes against the two held shares only and ends the
position flat with a zeroed average price — it does not end at
`qty = 2 − 5 = −3` with `avg_price = 0.60` as the claim states. -/
theorem pnl_sell_residual_dropped :
    pnlScenario.positions (pnlKey "m2" "Up") = ⟨0, 0⟩
    ∧ pnlScenario.realized_trading = 2 / 5
    ∧ ¬(pnlScenario.positions (pnlKey "m2" "Up")
        = ⟨2 - 5, 3 / 5⟩) := by
  refine ⟨?_, ?_, ?_⟩ <;>
    norm_num [pnlScenario, pnlInit, applyFill, pnlKey, min_def, Position.mk.injEq] <;>
    rw [if_neg (by decide : ¬ ("SELL" = "BUY"))] <;>
    norm_num [Position.mk.injEq]

/-- Claim C6 amended: for a SELL whose quantity strictly exceeds a positive
long position, `apply_fill` realizes `(price − avg_price) × qty` over the
whole held quantity and leaves the position flat (`qty = 0`,
`avg_price = 0`); the residual quantity is discarded and no short is
opened. -/
theorem pnl_sell_beyond_long_flattens (st : PnLState) (market_id outcome : String)
    (qty price : ℚ)
    (hpos : 0 < (st.positions (pnlKey market_id outcome)).qty)
    (hover : (st.positions (pnlKey market_id outcome)).qty < qty) :
    (applyFill st market_id outcome "SELL" qty price).positions (pnlKey market_id outcome)
        = ⟨0, 0⟩
    ∧ (applyFill st market_id outcome "SELL" qty price).realized_trading
        = st.realized_trading
          + (price - (st.positions (pnlKey market_id outcome)).avg_price)
            * (st.positions (pnlKey market_id outcome)).qty := by
  simp only [applyFill]
  rw [if_neg (by decide : ¬ ("SELL" = "BUY"))]
  rw [if_pos hpos]
  have hmin : min qty (st.positions (pnlKey market_id outcome)).qty
      = (st.positions (pnlKey market_id outcome)).qty := min_eq_right hover.le
  constructor
  · simp [hmin]
  · simp [hmin]

/-- Claim C6 witness: the amended statement applied to the long of two
shares at 0.40 sold into by five shares at 0.60. -/
theorem pnl_sell_beyond_long_flattens_witness :
    (0 : ℚ) < ((applyFill (pnlInit 0) "m2" "Up" "BUY" 2 (2 / 5)).positions
      (pnlKey "m2" "Up")).qty
    ∧ ((applyFill (pnlInit 0) "m2" "Up" "BUY" 2 (2 / 5)).positions (pnlKey "m2" "Up")).qty < 5
    ∧ (applyFill (applyFill (pnlInit 0) "m2" "Up" "BUY" 2 (2 / 5)) "m2" "Up" "SELL" 5 (3 / 5)
        ).positions (pnlKey "m2" "Up") = ⟨0, 0⟩ := by
  have h1 : (0 : ℚ) < ((applyFill (pnlInit 0) "m2" "Up" "BUY" 2 (2 / 5)).positions
      (pnlKey "m2" "Up")).qty := by decide
  have h2 : ((applyFill (pnlInit 0) "m2" "Up" "BUY" 2 (2 / 5)).positions
      (pnlKey "m2" "Up")).qty < 5 := by decide
  exact ⟨h1, h2,
    (pnl_sell_beyond_long_flattens (applyFill (pnlInit 0) "m2" "Up" "BUY" 2 (2 / 5))
      "m2" "Up" 5 (3 / 5) h1 h2).1⟩

/-- Claim C7: a bucket whose signed net notional (BUY = +1, SELL = −1)
sums to zero produces no intent — both in the orchestrator's
`_coalesced_intent` and in the netting mode of `IntentNetCoalescer`. -/
theorem zero_net_bucket_emits_nothing (events : List TradeEvent) (cfg : CoalescerConfig)
    (nowMs max_slippage_bps : Int) (hnet : cfg.net_opposite_trades = true)
    (hzero : (events.map signedNotionalVal).sum = 0) :
    coalescedIntent events max_slippage_bps = none ∧ toIntent cfg nowMs events = none := by
  cases hs : sortByExecutedTs events with
  | nil => constructor <;> simp [coalescedIntent, toIntent, hs]
  | cons e0 rest =>
    have hv : (netNotional (e0 :: rest)).m = 0 := by
      rw [← Dec.val_eq_zero_iff, ← hs, netNotional_sort_val]
      exact hzero
    constructor
    · simp [coalescedIntent, hs, hv]
    · simp [toIntent, hs, hnet, hv]

/-- Claim C7 witness: the exactly-cancelling five-dollar BUY and SELL of
spec scenario 2 produce no intent. -/
theorem zero_net_bucket_emits_nothing_witness :
    ([buyFive, sellFive].map signedNotionalVal).sum = 0
    ∧ coalescedIntent [buyFive, sellFive] 120 = none
    ∧ toIntent {} 0 [buyFive, sellFive] = none := by
  have h : ([buyFive, sellFive].map signedNotionalVal).sum = 0 := by
    norm_num [signedNotionalVal, buyFive, sellFive, Dec.val]
    rw [if_neg (by decide : ¬ (Side.SELL = Side.BUY))]
    norm_num
  obtain ⟨h1, h2⟩ := zero_net_bucket_emits_nothing [buyFive, sellFive] {} 0 120 rfl h
  exact ⟨h, h1, h2⟩

set_option maxRecDepth 10000 in
/-- Claim C8: `deterministic_client_order_id` is a function of exactly the
six identity fields — two intents agreeing on market, outcome, side,
window, event ids and notional receive the same id — and on the
repository's sample intent it equals `cb-` followed by the first 24 hex
characters of the SHA-256 of `m1|Up|BUY|w1|e1|5` (digest checked against
the reference value of the hash). -/
theorem client_order_id_deterministic :
    (∀ i1 i2 : ExecutionIntent, i1.market_id = i2.market_id → i1.outcome = i2.outcome →
      i1.side = i2.side → i1.window_id = i2.window_id →
      i1.coalesced_event_ids = i2.coalesced_event_ids →
      i1.target_notional_usd = i2.target_notional_usd →
      deterministicClientOrderId i1 = deterministicClientOrderId i2)
    ∧ deterministicClientOrderId sampleIntent = "cb-ea2d2a583d6bd50a4178e373" := by
  constructor
  · intro i1 i2 h1 h2 h3 h4 h5 h6
    unfold deterministicClientOrderId digestInput
    rw [h1, h2, h3, h4, h5, h6]
  · decide

/-- Claim C8 witness: two intents that differ in `intent_id` and slippage
but agree on the six identity fields receive the same client order id. -/
theorem client_order_id_deterministic_witness :
    (⟨"a", "m1", "Up", .BUY, ⟨5, 0⟩, 60, ["e1"], some "w1"⟩ :
        ExecutionIntent).market_id
      = (⟨"b", "m1", "Up", .BUY, ⟨5, 0⟩, 120, ["e1"], some "w1"⟩ :
        ExecutionIntent).market_id
    ∧ deterministicClientOrderId ⟨"a", "m1", "Up", .BUY, ⟨5, 0⟩, 60, ["e1"], some "w1"⟩
      = deterministicClientOrderId ⟨"b", "m1", "Up", .BUY, ⟨5, 0⟩, 120, ["e1"], some "w1"⟩ :=
  ⟨rfl, client_order_id_deterministic.1 _ _ rfl rfl rfl rfl rfl rfl⟩

/-- Claim C9: under the hysteresis requirement on the thresholds, a
breached error-rate bound activates the switch with reason
`auto_error_rate_threshold` and streak 0 on that very call, a breached
latency bound likewise with `auto_latency_threshold`; once active, a run of
recovery-healthy snapshots keeps the switch active with the streak counting
them while the run is shorter than `recovery_consecutive_snapshots` and
deactivates it exactly when the run reaches that length; and an in-band
reading that misses a recovery bound keeps the switch active with the
streak reset to zero. -/
theorem auto_kill_guard_hysteresis (t : AutoKillThresholds)
    (hyst1 : t.recover_max_error_rate ≤ t.max_error_rate)
    (hyst2 : t.recover_max_p95_latency_ms ≤ t.max_p95_latency_ms)
    (hk : 1 ≤ t.recovery_consecutive_snapshots) :
    (∀ (s : GuardState) (er : ℚ) (p95 : Int), t.max_error_rate < er →
        evaluate t s er p95 = ⟨true, "auto_error_rate_threshold", 0⟩)
    ∧ (∀ (s : GuardState) (er : ℚ) (p95 : Int), er ≤ t.max_error_rate →
        t.max_p95_latency_ms < p95 →
        evaluate t s er p95 = ⟨true, "auto_latency_threshold", 0⟩)
    ∧ (∀ (r : String) (readings : List (ℚ × Int)),
        (∀ x ∈ readings, recoveryHealthy t x.1 x.2) →
        evaluateSeq t ⟨true, r, 0⟩ readings =
          if readings.length < t.recovery_consecutive_snapshots then
            ⟨true, r, readings.length⟩
          else ⟨false, "", 0⟩)
    ∧ (∀ (s : GuardState) (er : ℚ) (p95 : Int), s.active = true →
        er ≤ t.max_error_rate → p95 ≤ t.max_p95_latency_ms →
        ¬ recoveryHealthy t er p95 →
        evaluate t s er p95 = ⟨true, s.reason, 0⟩) := by
  refine ⟨fun s er p95 h => evaluate_err_breach t s er p95 h,
    fun s er p95 h1 h2 => evaluate_lat_breach t s er p95 h1 h2,
    fun r readings hL => ?_,
    fun s er p95 hact h1 h2 hnr => evaluate_reset t s er p95 hact h1 h2 hnr⟩
  simpa using evaluateSeq_recovery t hyst1 hyst2 r 0 (by omega) readings hL

/-- Claim C9 witness: with the default thresholds (0.2, 1200 ms, 0.1,
800 ms, streak 2), the reading (0, 1500) activates the latency kill, two
consecutive (0.05, 700) readings recover while one alone does not, and an
intermediate (0, 900) resets the streak. -/
theorem auto_kill_guard_hysteresis_witness :
    evaluate {} ⟨false, "", 0⟩ 0 1500 = ⟨true, "auto_latency_threshold", 0⟩
    ∧ evaluateSeq {} ⟨true, "auto_latency_threshold", 0⟩ [(1 / 20, 700)]
        = ⟨true, "auto_latency_threshold", 1⟩
    ∧ evaluateSeq {} ⟨true, "auto_latency_threshold", 0⟩ [(1 / 20, 700), (1 / 20, 700)]
        = ⟨false, "", 0⟩
    ∧ evaluate {} ⟨true, "auto_latency_threshold", 1⟩ 0 900
        = ⟨true, "auto_latency_threshold", 0⟩ := by
  obtain ⟨h1, h2, h3, h4⟩ := auto_kill_guard_hysteresis {} (by norm_num) (by norm_num)
    (by norm_num)
  have hrh : recoveryHealthy ({} : AutoKillThresholds) (1 / 20) 700 :=
    ⟨by norm_num, by norm_num⟩
  refine ⟨h2 ⟨false, "", 0⟩ 0 1500 (by norm_num) (by norm_num), ?_, ?_, ?_⟩
  · have := h3 "auto_latency_threshold" [(1 / 20, 700)]
      (by intro x hx
          simp only [List.mem_cons, List.not_mem_nil, or_false, or_self] at hx
          subst hx
          exact hrh)
    simpa using this
  · have := h3 "auto_latency_threshold" [(1 / 20, 700), (1 / 20, 700)]
      (by intro x hx
          simp only [List.mem_cons, List.not_mem_nil, or_false, or_self] at hx
          subst hx
          exact hrh)
    simpa using this
  · refine h4 ⟨true, "auto_latency_threshold", 1⟩ 0 900 rfl (by norm_num) (by norm_num) ?_
    intro hr
    have h900 := hr.2
    norm_num at h900

/-- Claim C10: a BUY onto a flat or short position overwrites it with the
fill quantity and price — the held short quantity is discarded — and
realized trading PnL is unchanged. -/
theorem pnl_buy_on_non_positive_overwrites (st : PnLState) (market_id outcome : String)
    (qty price : ℚ) (hshort : (st.positions (pnlKey market_id outcome)).qty ≤ 0) :
    (applyFill st market_id outcome "BUY" qty price).positions (pnlKey market_id outcome)
        = ⟨qty, price⟩
    ∧ (applyFill st market_id outcome "BUY" qty price).realized_trading
        = st.realized_trading := by
  simp only [applyFill, if_true]
  rw [if_pos hshort]
  constructor <;> simp

/-- Claim C10 witness: buying four shares at 0.70 over a three-share short
overwrites the position to `(4, 0.70)` and leaves realized trading PnL
untouched. -/
theorem pnl_buy_on_non_positive_overwrites_witness :
    (shortState.positions (pnlKey "m3" "Down")).qty ≤ 0
    ∧ (applyFill shortState "m3" "Down" "BUY" 4 (7 / 10)).positions (pnlKey "m3" "Down")
        = ⟨4, 7 / 10⟩
    ∧ (applyFill shortState "m3" "Down" "BUY" 4 (7 / 10)).realized_trading
        = shortState.realized_trading := by
  have h : (shortState.positions (pnlKey "m3" "Down")).qty ≤ 0 := by
    norm_num [shortState, pnlInit, applyFill, pnlKey]
    decide
  obtain ⟨h1, h2⟩ := pnl_buy_on_non_positive_overwrites shortState "m3" "Down" 4 (7 / 10) h
  exact ⟨h, h1, h2⟩

end Coinbot
